import Mathlib

/-!
Verification of the `custom_components/iotopen` integration core.

Python strings are embedded as `List Char` (`PyStr`), `meta` dictionaries as
association lists from key to value, the coordinator's per-topic status map and
the published snapshot as functions into `Option`.  Fallible Python code
(a raised exception) is embedded as `Except`.

Source files embedded here: `coordinator.py`, `switch.py`, `mqtt_client.py`,
`api.py`.
-/

namespace IoTOpen

/-- Python `str` embedded as a list of characters. -/
abbrev PyStr := List Char

/-- Python `str.lower()`. -/
def pyLower (s : PyStr) : PyStr := s.map Char.toLower

/-- Python `str.strip()` (removes leading and trailing whitespace). -/
def pyStrip (s : PyStr) : PyStr :=
  ((s.dropWhile Char.isWhitespace).reverse.dropWhile Char.isWhitespace).reverse

/-- Python `str.lstrip('/')`. -/
def pyLStripSlash (s : PyStr) : PyStr := s.dropWhile (fun c => c = '/')

/-- A FunctionX `meta` dictionary: keys to string values. -/
abbrev Meta := List (PyStr × PyStr)

/-- Python `meta.get(key)`: `none` when the key is absent. -/
def metaGet : Meta → PyStr → Option PyStr
  | [], _ => none
  | (k, v) :: rest, key => if k = key then some v else metaGet rest key

/-- Python `meta.get(key, default)`. -/
def metaGetD (m : Meta) (key d : PyStr) : PyStr := (metaGet m key).getD d

/-- Python `key in meta`. -/
def metaHas (m : Meta) (key : PyStr) : Bool := (metaGet m key).isSome

/-- Embeds `is_binary_function` from `coordinator.py` (lines 50-71):
types containing "switch" are excluded, then `alarm_` prefix or the presence of
both `state_alarm` and `state_no_alarm` meta keys make it a binary sensor. -/
def is_binary_function (ty : PyStr) (meta : Meta) : Bool :=
  let t := pyLower ty
  if "switch".data <:+: t then false
  else if "alarm_".data <+: t then true
  else if metaHas meta "state_alarm".data && metaHas meta "state_no_alarm".data then true
  else false

/-- Embeds `is_switch_function` from `coordinator.py` (lines 74-91):
type exactly "switch", type ending in "_switch", or a `topic_write` meta key. -/
def is_switch_function (ty : PyStr) (meta : Meta) : Bool :=
  let t := pyLower ty
  if t = "switch".data then true
  else if "_switch".data <:+ t then true
  else if metaHas meta "topic_write".data then true
  else false

/-- Embeds the inner `_truthy` of `is_exposed_to_ha` in `coordinator.py`:
`str(v).strip().lower() in ("1", "true", "yes", "on")`. -/
def py_truthy (v : PyStr) : Bool :=
  let s := pyLower (pyStrip v)
  s = "1".data || s = "true".data || s = "yes".data || s = "on".data

/-- Embeds `is_exposed_to_ha` from `coordinator.py` (lines 104-128). -/
def is_exposed_to_ha (meta : Meta) : Bool :=
  if meta = [] then true
  else if py_truthy (metaGetD meta "ha.disabled".data []) then false
  else if py_truthy (metaGetD meta "ha.hidden".data []) then false
  else true

/-- Value of a run of decimal digits. -/
def digitsToNat (ds : PyStr) : Nat := ds.foldl (fun a c => a * 10 + (c.toNat - 48)) 0

/-- Python `int(s)` on a string: optional sign, decimal digits, surrounding
whitespace allowed; `none` models a raised `ValueError`. -/
def py_int_of_str (s : PyStr) : Option Int :=
  match pyStrip s with
  | [] => none
  | '+' :: ds => if ds ≠ [] && ds.all Char.isDigit then some (Int.ofNat (digitsToNat ds)) else none
  | '-' :: ds => if ds ≠ [] && ds.all Char.isDigit then some (-(Int.ofNat (digitsToNat ds))) else none
  | ds => if ds.all Char.isDigit then some (Int.ofNat (digitsToNat ds)) else none

/-- Embeds `_parse_device_id` from `coordinator.py` (lines 94-101). -/
def parse_device_id : Option PyStr → Option Int
  | none => none
  | some s => py_int_of_str s

/-- Embeds `IoTOpenSwitch._parse_int` from `switch.py` (lines 138-143). -/
def switch_parse_int (v : Option PyStr) (d : Int) : Int :=
  match v with
  | none => d
  | some s => (py_int_of_str s).getD d

/-- Embeds `IoTOpenSwitch._compute_on_off_values` from `switch.py` (lines 145-159). -/
def compute_on_off_values (meta : Meta) : Int × Int :=
  (switch_parse_int (metaGet meta "state_on".data) 255,
   switch_parse_int (metaGet meta "state_off".data) 0)

/-- The `timestamp` field of a raw status sample: absent key, JSON `null`, or a
number.  (`coordinator.py` reads it with `sample.get("timestamp")`.) -/
inductive TSField where
  | absent
  | null
  | num (v : Int)
  deriving DecidableEq, Repr

/-- A raw status sample as returned by the status endpoint.  `topic = none`
models an absent (or null) `topic` key; the empty string is `some []`. -/
structure Sample where
  topic : Option PyStr
  timestamp : TSField
  value : Option Int
  deriving DecidableEq, Repr

/-- `sample.get("timestamp") or 0`: absent and null (and 0 itself) give 0. -/
def normTS : TSField → Int
  | .absent => 0
  | .null => 0
  | .num v => v

/-- `current.get("timestamp", 0)`: absent gives the default 0, but a stored JSON
`null` gives Python `None` (so a later `>=` against it raises `TypeError`,
modelled as `none`). -/
def storedTS : TSField → Option Int
  | .absent => some 0
  | .null => none
  | .num v => some v

/-- The coordinator's `status_by_topic` dictionary. -/
abbrev StatusMap := PyStr → Option Sample

def emptyStatus : StatusMap := fun _ => none

/-- `status_by_topic[topic] = sample`. -/
def updateStatus (m : StatusMap) (t : PyStr) (s : Sample) : StatusMap :=
  fun u => if u = t then some s else m u

/-- One iteration of the per-topic merge loop in
`IoTOpenDataUpdateCoordinator._async_update_data` (`coordinator.py` lines
230-237).  `.error ()` models the `TypeError` raised by `ts >= None`. -/
def mergeStep (m : StatusMap) (s : Sample) : Except Unit StatusMap :=
  match s.topic with
  | none => .ok m
  | some t =>
    if t = [] then .ok m
    else
      match m t with
      | none => .ok (updateStatus m t s)
      | some cur =>
        match storedTS cur.timestamp with
        | none => .error ()
        | some ct =>
          if normTS s.timestamp ≥ ct then .ok (updateStatus m t s) else .ok m

/-- The merge loop over a batch, starting from a given map. -/
def mergeFrom : StatusMap → List Sample → Except Unit StatusMap
  | m, [] => .ok m
  | m, s :: rest =>
    match mergeStep m s with
    | .error e => .error e
    | .ok m2 => mergeFrom m2 rest

/-- The full per-topic merge of one status batch. -/
def mergeBatch (batch : List Sample) : Except Unit StatusMap := mergeFrom emptyStatus batch

/-- A raw FunctionX record as fetched from the registry. -/
structure FuncRecord where
  id : Int
  installation_id : Option Int
  type : PyStr
  meta : Meta
  deriving DecidableEq, Repr

/-- Embeds the dataclass `IoTOpenFunctionState` from `coordinator.py`. -/
structure FnState where
  function_id : Int
  installation_id : Int
  type : PyStr
  name : PyStr
  topic_read : PyStr
  last_value : Option Int
  last_timestamp : Option Int
  device_id : Option Int
  meta : Meta
  deriving DecidableEq, Repr

/-- `status.get("timestamp")` as stored into `last_timestamp`. -/
def tsFieldOpt : TSField → Option Int
  | .absent => none
  | .null => none
  | .num v => some v

/-- `str(meta.get("name") or f"Function {func_id}")` (with the brace-pair being
the Python format hole for the id). -/
def fnName (meta : Meta) (fid : Int) : PyStr :=
  let n := metaGetD meta "name".data []
  if n = [] then "Function ".data ++ (toString fid).data else n

/-- Building one `IoTOpenFunctionState` in step 3 of `_async_update_data`. -/
def mkFnState (instId : Int) (topic : PyStr) (func : FuncRecord) (status : Option Sample) :
    FnState :=
  { function_id := func.id
    installation_id := func.installation_id.getD instId
    type := func.type
    name := fnName func.meta func.id
    topic_read := topic
    last_value := match status with | none => none | some st => st.value
    last_timestamp := match status with | none => none | some st => tsFieldOpt st.timestamp
    device_id := parse_device_id (metaGet func.meta "device_id".data)
    meta := func.meta }

/-- Python dict assignment `function_by_topic[topic] = item`: replace in place
or append (insertion-ordered dict). -/
def upsert : List (PyStr × FuncRecord) → PyStr → FuncRecord → List (PyStr × FuncRecord)
  | [], k, v => [(k, v)]
  | (k0, v0) :: rest, k, v =>
    if k0 = k then (k, v) :: rest else (k0, v0) :: upsert rest k v

/-- One iteration of the filter loop in `_async_update_data` (`coordinator.py`
lines 189-202): skip hidden records, skip records without a truthy
`topic_read`, else record the topic and the record. -/
def collectStep (acc : List PyStr × List (PyStr × FuncRecord)) (item : FuncRecord) :
    List PyStr × List (PyStr × FuncRecord) :=
  if is_exposed_to_ha item.meta then
    match metaGet item.meta "topic_read".data with
    | none => acc
    | some t => if t = [] then acc else (acc.1 ++ [t], upsert acc.2 t item)
  else acc

/-- The filter loop: returns `topics` and `function_by_topic`. -/
def collect (funcs : List FuncRecord) : List PyStr × List (PyStr × FuncRecord) :=
  funcs.foldl collectStep ([], [])

/-- The coordinator's published snapshot, keyed by function id. -/
abbrev Snapshot := Int → Option FnState

def emptySnapshot : Snapshot := fun _ => none

/-- `result[func_id] = state`. -/
def insertState (snap : Snapshot) (fid : Int) (st : FnState) : Snapshot :=
  fun j => if j = fid then some st else snap j

/-- Step 3 of `_async_update_data`: build the snapshot from `function_by_topic`
and the merged status map. -/
def buildSnapshot (instId : Int) (fbt : List (PyStr × FuncRecord)) (sm : StatusMap) : Snapshot :=
  fbt.foldl (fun acc p => insertState acc p.2.id (mkFnState instId p.1 p.2 (sm p.1)))
    emptySnapshot

/-- Embeds `IoTOpenDataUpdateCoordinator._async_update_data` (`coordinator.py`
lines 163-282) given the already-fetched FunctionX list and the status
response that the status endpoint would return.  The result carries the built
snapshot, whether the status request was issued (`if topics:`), and the merged
`status_by_topic` map. -/
def async_update_data (instId : Int) (funcs : List FuncRecord) (statusRaw : List Sample) :
    Except Unit (Snapshot × Bool × StatusMap) :=
  let c := collect funcs
  if c.1 = [] then .ok (buildSnapshot instId c.2 emptyStatus, false, emptyStatus)
  else
    match mergeBatch statusRaw with
    | .error e => .error e
    | .ok m => .ok (buildSnapshot instId c.2 m, true, m)

/-- Embeds the guard of `IoTOpenApiClient.async_get_status_for_topics`
(`api.py` lines 290-304): an empty topic list returns `[]` without any network
request; otherwise the endpoint response is returned. -/
def async_get_status_for_topics (topics : List PyStr) (response : List Sample) : List Sample :=
  if topics = [] then [] else response

/-- `default_prefix = mqtt_prefix or str(state.installation_id)` in
`IoTOpenSwitch.__init__` (`switch.py` line 108): a `None` or empty prefix
falls back to the installation id. -/
def default_prefix (mqttPrefix : Option PyStr) (installationId : Int) : PyStr :=
  match mqttPrefix with
  | none => (toString installationId).data
  | some p => if p = [] then (toString installationId).data else p

/-- `topic_write_meta = str(meta.get("topic_write") or "").strip()`
(`switch.py` line 106). -/
def topic_write_meta (meta : Meta) : PyStr := pyStrip (metaGetD meta "topic_write".data [])

/-- Embeds the write-topic derivation of `IoTOpenSwitch.__init__`
(`switch.py` lines 105-118). -/
def derive_topic_set (mqttPrefix : Option PyStr) (installationId : Int) (meta : Meta)
    (topicRead : PyStr) : PyStr :=
  let tw := topic_write_meta meta
  let pre := default_prefix mqttPrefix installationId
  match tw with
  | [] => pre ++ "/set/".data ++ pyLStripSlash topicRead
  | c :: rest =>
    if c.isDigit = true ∧ "/".data <:+: (c :: rest) then c :: rest
    else pre ++ "/".data ++ pyLStripSlash (c :: rest)

/-- Embeds `IoTOpenMqttClient.async_publish` (`mqtt_client.py` lines 141-163):
first ensure the connection (whose failure propagates), then publish and wait
for the broker acknowledgment; an acknowledgment code other than
`MQTT_ERR_SUCCESS` (0) raises `RuntimeError`.  Errors are the raised message. -/
def mqtt_async_publish (connect : Except PyStr Unit) (ackRc : Int) : Except PyStr Unit :=
  match connect with
  | .error e => .error e
  | .ok _ =>
    if ackRc = 0 then .ok ()
    else .error ("MQTT publish failed with rc=".data ++ (toString ackRc).data)

/-- Embeds `IoTOpenSwitch._publish` (`switch.py` lines 180-215): with no MQTT
client configured it only logs a warning and returns; otherwise it awaits the
publish and catches every exception (logging a warning), so it always returns
normally. -/
def switch_publish (mqttConfigured : Bool) (publishResult : Except PyStr Unit) :
    Except PyStr Unit :=
  if mqttConfigured then
    match publishResult with
    | .ok _ => .ok ()
    | .error _ => .ok ()
  else .ok ()

/-- Embeds `IoTOpenSwitch.async_turn_on` (`switch.py` lines 228-235) acting on
the coordinator snapshot: call `_publish` (whose exceptions, if any escaped,
would abort before the patch), then patch `last_value` of the snapshot entry.
`async_turn_off` is the same function applied to the off value. -/
def async_turn_on (mqttConfigured : Bool) (publishResult : Except PyStr Unit)
    (snap : Snapshot) (funcId : Int) (stateOn : Int) : Snapshot :=
  match switch_publish mqttConfigured publishResult with
  | .error _ => snap
  | .ok _ =>
    match snap funcId with
    | none => snap
    | some st => insertState snap funcId { st with last_value := some stateOn }

/-- Outcome of the underlying HTTP exchange attempted by
`IoTOpenApiClient._async_request_json`. -/
inductive HttpOutcome where
  | transportError (errText : PyStr)
  | timeoutError (errText : PyStr)
  | response (status : Nat) (body : PyStr) (contentTypeJson : Bool)
  deriving DecidableEq, Repr

/-- Return value of `_async_request_json`: parsed JSON, `None` for an empty
non-JSON body, or the text wrapper dict. -/
inductive JsonReturn where
  | parsedJson (body : PyStr)
  | noneValue
  | textWrapped (t : PyStr)
  deriving DecidableEq, Repr

/-- Embeds `IoTOpenApiClient._async_request_json` (`api.py` lines 310-349).
Errors carry the `IoTOpenApiError` message: `f"HTTP {status} from {url}:
{text}"` for a status of 400 or more, and `f"Error talking to IoT Open:
{err}"` for `ClientError` and `asyncio.TimeoutError` (the braces being the
Python format holes). -/
def async_request_json (url : PyStr) (outcome : HttpOutcome) : Except PyStr JsonReturn :=
  match outcome with
  | .transportError e => .error ("Error talking to IoT Open: ".data ++ e)
  | .timeoutError e => .error ("Error talking to IoT Open: ".data ++ e)
  | .response status body ctJson =>
    if status ≥ 400 then
      .error ("HTTP ".data ++ (toString status).data ++ " from ".data ++ url
        ++ ": ".data ++ body)
    else if ctJson then .ok (.parsedJson body)
    else if body = [] then .ok .noneValue
    else .ok (.textWrapped body)

/-! ### Basic lemmas about the embedded maps -/

@[simp]
theorem updateStatus_apply (m : StatusMap) (t : PyStr) (s : Sample) (u : PyStr) :
    updateStatus m t s u = if u = t then some s else m u := rfl

@[simp]
theorem emptyStatus_apply (t : PyStr) : emptyStatus t = none := rfl

@[simp]
theorem insertState_apply (snap : Snapshot) (fid : Int) (st : FnState) (j : Int) :
    insertState snap fid st j = if j = fid then some st else snap j := rfl

theorem storedTS_getD (f : TSField) : (storedTS f).getD 0 = normTS f := by
  cases f <;> rfl

/-! ### Case lemmas for one merge iteration -/

theorem mergeStep_skip (m : StatusMap) (s : Sample)
    (h : s.topic = none ∨ s.topic = some []) : mergeStep m s = .ok m := by
  rcases h with h | h <;> simp [mergeStep, h]

theorem mergeStep_new {m : StatusMap} {s : Sample} {t : PyStr}
    (hs : s.topic = some t) (ht : t ≠ []) (hm : m t = none) :
    mergeStep m s = .ok (updateStatus m t s) := by
  simp [mergeStep, hs, ht, hm]

theorem mergeStep_cmp {m : StatusMap} {s : Sample} {t : PyStr} {cur : Sample} {ct : Int}
    (hs : s.topic = some t) (ht : t ≠ []) (hm : m t = some cur)
    (hc : storedTS cur.timestamp = some ct) :
    mergeStep m s = .ok (if normTS s.timestamp ≥ ct then updateStatus m t s else m) := by
  simp only [mergeStep, hs, ht, if_neg ht, hm, hc]
  by_cases h : normTS s.timestamp ≥ ct <;> simp [h]

theorem mergeStep_raise {m : StatusMap} {s : Sample} {t : PyStr} {cur : Sample}
    (hs : s.topic = some t) (ht : t ≠ []) (hm : m t = some cur)
    (hc : storedTS cur.timestamp = none) :
    mergeStep m s = .error () := by
  simp [mergeStep, hs, ht, hm, hc]

@[simp]
theorem mergeFrom_nil (m : StatusMap) : mergeFrom m [] = .ok m := rfl

theorem mergeFrom_cons_ok {m m2 : StatusMap} {s : Sample} (rest : List Sample)
    (h : mergeStep m s = .ok m2) :
    mergeFrom m (s :: rest) = mergeFrom m2 rest := by
  simp [mergeFrom, h]

/-! ### Stored samples carry their own non-empty topic -/

/-- Every entry of the status map sits under its own non-empty `topic`. -/
def storedOK (m : StatusMap) : Prop :=
  ∀ t s, m t = some s → t ≠ [] ∧ s.topic = some t

theorem storedOK_empty : storedOK emptyStatus := by
  intro t s h
  simp at h

theorem storedOK_update {m : StatusMap} {s : Sample} {t : PyStr}
    (hm : storedOK m) (ht : t ≠ []) (hs : s.topic = some t) :
    storedOK (updateStatus m t s) := by
  intro u x hx
  simp only [updateStatus_apply] at hx
  by_cases hu : u = t
  · subst hu
    rw [if_pos rfl] at hx
    cases hx
    exact ⟨ht, hs⟩
  · rw [if_neg hu] at hx
    exact hm u x hx

theorem mergeStep_storedOK {m m2 : StatusMap} {s : Sample}
    (hm : storedOK m) (h : mergeStep m s = .ok m2) : storedOK m2 := by
  cases hs : s.topic with
  | none =>
    rw [mergeStep_skip m s (Or.inl hs)] at h
    cases h
    exact hm
  | some t =>
    by_cases ht : t = []
    · subst ht
      rw [mergeStep_skip m s (Or.inr hs)] at h
      cases h
      exact hm
    · cases hmt : m t with
      | none =>
        rw [mergeStep_new hs ht hmt] at h
        cases h
        exact storedOK_update hm ht hs
      | some cur =>
        cases hct : storedTS cur.timestamp with
        | none =>
          rw [mergeStep_raise hs ht hmt hct] at h
          cases h
        | some ct =>
          rw [mergeStep_cmp hs ht hmt hct] at h
          by_cases hge : normTS s.timestamp ≥ ct
          · rw [if_pos hge] at h
            cases h
            exact storedOK_update hm ht hs
          · rw [if_neg hge] at h
            cases h
            exact hm

theorem mergeFrom_storedOK :
    ∀ (b : List Sample) (m m2 : StatusMap), storedOK m → mergeFrom m b = .ok m2 →
      storedOK m2 := by
  intro b
  induction b with
  | nil =>
    intro m m2 hm h
    simp only [mergeFrom_nil] at h
    cases h
    exact hm
  | cons s rest ih =>
    intro m m2 hm h
    unfold mergeFrom at h
    cases hstep : mergeStep m s with
    | error e => rw [hstep] at h; cases h
    | ok mid =>
      rw [hstep] at h
      exact ih mid m2 (mergeStep_storedOK hm hstep) h

/-! ### Total merge on numeric-timestamp batches -/

/-- The merge iteration restricted to the non-raising situations, as a total
function (the stored comparison value read with default 0). -/
def mergeStepT (m : StatusMap) (s : Sample) : StatusMap :=
  match s.topic with
  | none => m
  | some t =>
    if t = [] then m
    else
      match m t with
      | none => updateStatus m t s
      | some cur =>
        if normTS s.timestamp ≥ (storedTS cur.timestamp).getD 0 then updateStatus m t s else m

def mergeFromT : StatusMap → List Sample → StatusMap
  | m, [] => m
  | m, s :: rest => mergeFromT (mergeStepT m s) rest

/-- Every stored sample carries a numeric `timestamp`. -/
def mapNumeric (m : StatusMap) : Prop :=
  ∀ t s, m t = some s → ∃ v, s.timestamp = TSField.num v

theorem mapNumeric_empty : mapNumeric emptyStatus := by
  intro t s h
  simp at h

theorem mapNumeric_update {m : StatusMap} {s : Sample} {t : PyStr}
    (hm : mapNumeric m) (hs : ∃ v, s.timestamp = TSField.num v) :
    mapNumeric (updateStatus m t s) := by
  intro u x hx
  simp only [updateStatus_apply] at hx
  by_cases hu : u = t
  · rw [if_pos hu] at hx
    cases hx
    exact hs
  · rw [if_neg hu] at hx
    exact hm u x hx

theorem mergeStep_eq_total {m : StatusMap} (s : Sample) (hm : mapNumeric m) :
    mergeStep m s = .ok (mergeStepT m s) := by
  cases hs : s.topic with
  | none => simp [mergeStep, mergeStepT, hs]
  | some t =>
    by_cases ht : t = []
    · simp [mergeStep, mergeStepT, hs, ht]
    · cases hmt : m t with
      | none =>
        rw [mergeStep_new hs ht hmt]
        simp [mergeStepT, hs, ht, hmt]
      | some cur =>
        obtain ⟨v, hv⟩ := hm t cur hmt
        have hct : storedTS cur.timestamp = some v := by rw [hv]; rfl
        rw [mergeStep_cmp hs ht hmt hct]
        simp [mergeStepT, hs, ht, hmt, hct]

theorem mergeStepT_numeric {m : StatusMap} {s : Sample}
    (hm : mapNumeric m) (hs : ∃ v, s.timestamp = TSField.num v) :
    mapNumeric (mergeStepT m s) := by
  unfold mergeStepT
  cases hst : s.topic with
  | none => exact hm
  | some t =>
    by_cases ht : t = []
    · simp only [if_pos ht]
      exact hm
    · simp only [if_neg ht]
      cases hmt : m t with
      | none => exact mapNumeric_update hm hs
      | some cur =>
        by_cases hge : normTS s.timestamp ≥ (storedTS cur.timestamp).getD 0
        · simp only [if_pos hge]
          exact mapNumeric_update hm hs
        · simp only [if_neg hge]
          exact hm

theorem mergeFrom_eq_total :
    ∀ (b : List Sample) (m : StatusMap), mapNumeric m →
      (∀ s ∈ b, ∃ v, s.timestamp = TSField.num v) →
      mergeFrom m b = .ok (mergeFromT m b) ∧ mapNumeric (mergeFromT m b) := by
  intro b
  induction b with
  | nil => intro m hm _; exact ⟨rfl, hm⟩
  | cons s rest ih =>
    intro m hm hb
    have hs : ∃ v, s.timestamp = TSField.num v := hb s (List.mem_cons_self s rest)
    have hrest : ∀ x ∈ rest, ∃ v, x.timestamp = TSField.num v :=
      fun x hx => hb x (List.mem_cons_of_mem s hx)
    have hmid : mapNumeric (mergeStepT m s) := mergeStepT_numeric hm hs
    obtain ⟨h1, h2⟩ := ih (mergeStepT m s) hmid hrest
    refine ⟨?_, h2⟩
    rw [mergeFrom_cons_ok rest (mergeStep_eq_total s hm)]
    exact h1

/-! ### Per-topic (slot) view of the total merge -/

/-- The topic under which a sample is stored, if any. -/
def sampleKey (s : Sample) : Option PyStr :=
  match s.topic with
  | none => none
  | some t => if t = [] then none else some t

/-- `ts` of a sample as used on the left of the `>=` comparison. -/
def tsOf (s : Sample) : Int := normTS s.timestamp

/-- The merge iteration seen from a single topic slot. -/
def slotStep : Option Sample → Sample → Option Sample
  | none, s => some s
  | some c, s => if tsOf s ≥ tsOf c then some s else some c

theorem sampleKey_eq_some {s : Sample} {t : PyStr} :
    sampleKey s = some t ↔ s.topic = some t ∧ t ≠ [] := by
  unfold sampleKey
  cases hs : s.topic with
  | none => simp
  | some u =>
    by_cases hu : u = []
    · subst hu
      simp only [if_pos rfl]
      constructor
      · intro h
        cases h
      · rintro ⟨h1, h2⟩
        cases h1
        exact absurd rfl h2
    · simp only [if_neg hu, Option.some.injEq]
      constructor
      · intro h
        subst h
        exact ⟨rfl, hu⟩
      · rintro ⟨h1, _⟩
        cases h1
        rfl

theorem mergeStepT_at_key {m : StatusMap} {s : Sample} {t : PyStr}
    (h : sampleKey s = some t) : mergeStepT m s t = slotStep (m t) s := by
  obtain ⟨hs, ht⟩ := sampleKey_eq_some.mp h
  cases hmt : m t with
  | none => simp [mergeStepT, hs, ht, hmt, slotStep]
  | some cur =>
    by_cases hge : normTS s.timestamp ≥ normTS cur.timestamp
    · simp [mergeStepT, hs, ht, hmt, storedTS_getD, slotStep, tsOf, hge]
    · simp [mergeStepT, hs, ht, hmt, storedTS_getD, slotStep, tsOf, hge]

theorem mergeStepT_at_other {m : StatusMap} {s : Sample} {t : PyStr}
    (h : sampleKey s ≠ some t) : mergeStepT m s t = m t := by
  cases hs : s.topic with
  | none => simp [mergeStepT, hs]
  | some u =>
    by_cases hu : u = []
    · simp [mergeStepT, hs, hu]
    · have hut : u ≠ t := by
        intro he
        apply h
        rw [sampleKey_eq_some]
        subst he
        exact ⟨hs, hu⟩
      have htu : t ≠ u := fun he => hut he.symm
      cases hmt : m u with
      | none => simp [mergeStepT, hs, hu, hmt, htu]
      | some cur =>
        by_cases hge : normTS s.timestamp ≥ (storedTS cur.timestamp).getD 0
        · simp [mergeStepT, hs, hu, hmt, hge, htu]
        · simp [mergeStepT, hs, hu, hmt, hge]

theorem mergeFromT_proj :
    ∀ (b : List Sample) (m : StatusMap) (t : PyStr),
      mergeFromT m b t =
        List.foldl slotStep (m t) (b.filter (fun s => decide (sampleKey s = some t))) := by
  intro b
  induction b with
  | nil => intro m t; rfl
  | cons s rest ih =>
    intro m t
    show mergeFromT (mergeStepT m s) rest t = _
    rw [ih]
    by_cases hk : sampleKey s = some t
    · rw [List.filter_cons_of_pos (by simpa using hk), List.foldl_cons,
        mergeStepT_at_key hk]
    · rw [List.filter_cons_of_neg (by simpa using hk), mergeStepT_at_other hk]

/-! ### Absorption of the slot fold -/

/-- The slot fold once a first sample is in place. -/
def slotRun2 (a s : Sample) : Sample := if tsOf s ≥ tsOf a then s else a

def slotRun (a : Sample) (l : List Sample) : Sample := l.foldl slotRun2 a

theorem tsOf_slotRun2_left (a s : Sample) : tsOf a ≤ tsOf (slotRun2 a s) := by
  unfold slotRun2
  by_cases h : tsOf s ≥ tsOf a
  · rw [if_pos h]
    exact h
  · rw [if_neg h]

theorem tsOf_slotRun2_right (a s : Sample) : tsOf s ≤ tsOf (slotRun2 a s) := by
  unfold slotRun2
  by_cases h : tsOf s ≥ tsOf a
  · rw [if_pos h]
  · rw [if_neg h]
    omega

theorem tsOf_slotRun_le : ∀ (l : List Sample) (a : Sample), tsOf a ≤ tsOf (slotRun a l) := by
  intro l
  induction l with
  | nil => intro a; exact le_refl _
  | cons s rest ih =>
    intro a
    calc tsOf a ≤ tsOf (slotRun2 a s) := tsOf_slotRun2_left a s
    _ ≤ tsOf (slotRun (slotRun2 a s) rest) := ih (slotRun2 a s)

@[simp]
theorem slotRun_nil (a : Sample) : slotRun a [] = a := rfl

@[simp]
theorem slotRun_cons (a s : Sample) (l : List Sample) :
    slotRun a (s :: l) = slotRun (slotRun2 a s) l := rfl

theorem slotFold_some : ∀ (l : List Sample) (a : Sample),
    List.foldl slotStep (some a) l = some (slotRun a l) := by
  intro l
  induction l with
  | nil => intro a; rfl
  | cons s rest ih =>
    intro a
    have hstep : slotStep (some a) s = some (slotRun2 a s) := by
      by_cases h : tsOf s ≥ tsOf a
      · simp [slotStep, slotRun2, h]
      · simp [slotStep, slotRun2, h]
    rw [List.foldl_cons, hstep, ih, slotRun_cons]

theorem slotRun_absorb : ∀ (l : List Sample) (a : Sample),
    slotRun (slotRun a l) l = slotRun a l := by
  intro l
  induction l with
  | nil => intro a; rfl
  | cons s rest ih =>
    intro a
    rw [slotRun_cons, slotRun_cons]
    set b := slotRun (slotRun2 a s) rest with hb
    by_cases h : tsOf s ≥ tsOf b
    · have h1 : tsOf (slotRun2 a s) ≤ tsOf b := hb ▸ tsOf_slotRun_le rest (slotRun2 a s)
      have h2 : tsOf s ≤ tsOf (slotRun2 a s) := tsOf_slotRun2_right a s
      have h3 : tsOf a ≤ tsOf (slotRun2 a s) := tsOf_slotRun2_left a s
      have hsa : tsOf s ≥ tsOf a := by omega
      have e1 : slotRun2 a s = s := by unfold slotRun2; rw [if_pos hsa]
      have e2 : slotRun2 b s = s := by unfold slotRun2; rw [if_pos h]
      rw [e2, hb, e1]
    · have e2 : slotRun2 b s = b := by unfold slotRun2; rw [if_neg h]
      rw [e2, hb]
      exact ih (slotRun2 a s)

theorem slot_idem (l : List Sample) :
    List.foldl slotStep (List.foldl slotStep none l) l = List.foldl slotStep none l := by
  cases l with
  | nil => rfl
  | cons s rest =>
    have h0 : List.foldl slotStep (none : Option Sample) (s :: rest) = some (slotRun s rest) := by
      rw [List.foldl_cons]
      show List.foldl slotStep (some s) rest = _
      exact slotFold_some rest s
    rw [h0, List.foldl_cons]
    set w := slotRun s rest with hw
    by_cases h : tsOf s ≥ tsOf w
    · have hstep : slotStep (some w) s = some s := by simp [slotStep, h]
      rw [hstep, slotFold_some rest s, ← hw]
    · have hstep : slotStep (some w) s = some w := by simp [slotStep, h]
      rw [hstep, slotFold_some rest w, hw, slotRun_absorb rest s]

/-! ### Invariants of the filter loop and of snapshot building -/

theorem upsert_mem {l : List (PyStr × FuncRecord)} {k : PyStr} {v : FuncRecord}
    {p : PyStr × FuncRecord} (h : p ∈ upsert l k v) : p ∈ l ∨ p = (k, v) := by
  induction l with
  | nil =>
    simp [upsert] at h
    exact Or.inr h
  | cons q rest ih =>
    unfold upsert at h
    by_cases hk : q.1 = k
    · rw [if_pos hk] at h
      rcases List.mem_cons.mp h with h1 | h1
      · exact Or.inr h1
      · exact Or.inl (List.mem_cons_of_mem q h1)
    · rw [if_neg hk] at h
      rcases List.mem_cons.mp h with h1 | h1
      · exact Or.inl (h1 ▸ List.mem_cons_self q rest)
      · rcases ih h1 with h2 | h2
        · exact Or.inl (List.mem_cons_of_mem q h2)
        · exact Or.inr h2

theorem upsert_ne_nil (l : List (PyStr × FuncRecord)) (k : PyStr) (v : FuncRecord) :
    upsert l k v ≠ [] := by
  cases l with
  | nil => simp [upsert]
  | cons q rest =>
    unfold upsert
    by_cases hk : q.1 = k
    · rw [if_pos hk]
      simp
    · rw [if_neg hk]
      simp

/-- What the filter loop guarantees about every surviving
`(topic, record)` pair. -/
def collectedOK (acc : List PyStr × List (PyStr × FuncRecord)) : Prop :=
  ∀ p ∈ acc.2, p.1 ≠ [] ∧ is_exposed_to_ha p.2.meta = true

theorem collectStep_collectedOK {acc : List PyStr × List (PyStr × FuncRecord)}
    {item : FuncRecord} (h : collectedOK acc) : collectedOK (collectStep acc item) := by
  unfold collectStep
  by_cases hexp : is_exposed_to_ha item.meta
  · rw [if_pos hexp]
    cases htr : metaGet item.meta "topic_read".data with
    | none => exact h
    | some t =>
      show collectedOK (if t = [] then acc else (acc.1 ++ [t], upsert acc.2 t item))
      by_cases ht : t = []
      · rw [if_pos ht]
        exact h
      · rw [if_neg ht]
        intro p hp
        rcases upsert_mem hp with h1 | h1
        · exact h p h1
        · subst h1
          exact ⟨ht, hexp⟩
  · rw [if_neg hexp]
    exact h

theorem foldl_collectedOK :
    ∀ (funcs : List FuncRecord) (acc : List PyStr × List (PyStr × FuncRecord)),
      collectedOK acc → collectedOK (funcs.foldl collectStep acc) := by
  intro funcs
  induction funcs with
  | nil => intro acc h; exact h
  | cons f rest ih =>
    intro acc h
    exact ih (collectStep acc f) (collectStep_collectedOK h)

theorem collect_collectedOK (funcs : List FuncRecord) : collectedOK (collect funcs) :=
  foldl_collectedOK funcs ([], []) (by intro p hp; cases hp)

/-- Along the filter loop, the topic list and the topic-to-record dict are
empty together. -/
theorem collectStep_empty_iff {acc : List PyStr × List (PyStr × FuncRecord)}
    {item : FuncRecord} (h : acc.1 = [] ↔ acc.2 = []) :
    (collectStep acc item).1 = [] ↔ (collectStep acc item).2 = [] := by
  unfold collectStep
  by_cases hexp : is_exposed_to_ha item.meta
  · rw [if_pos hexp]
    cases htr : metaGet item.meta "topic_read".data with
    | none => exact h
    | some t =>
      show (if t = [] then acc else (acc.1 ++ [t], upsert acc.2 t item)).1 = [] ↔
        (if t = [] then acc else (acc.1 ++ [t], upsert acc.2 t item)).2 = []
      by_cases ht : t = []
      · rw [if_pos ht]
        exact h
      · rw [if_neg ht]
        constructor
        · intro he
          exact absurd he (by simp)
        · intro he
          exact absurd he (upsert_ne_nil acc.2 t item)
  · rw [if_neg hexp]
    exact h

theorem collect_empty_iff (funcs : List FuncRecord) :
    (collect funcs).1 = [] ↔ (collect funcs).2 = [] := by
  unfold collect
  have gen : ∀ (l : List FuncRecord) (acc : List PyStr × List (PyStr × FuncRecord)),
      (acc.1 = [] ↔ acc.2 = []) →
      ((l.foldl collectStep acc).1 = [] ↔ (l.foldl collectStep acc).2 = []) := by
    intro l
    induction l with
    | nil => intro acc h; exact h
    | cons f rest ih => intro acc h; exact ih (collectStep acc f) (collectStep_empty_iff h)
  exact gen funcs ([], []) (by simp)

/-- Every entry of the built snapshot comes from some surviving
`(topic, record)` pair. -/
theorem buildSnapshot_inv {P : FnState → Prop} (instId : Int)
    (fbt : List (PyStr × FuncRecord)) (sm : StatusMap)
    (hP : ∀ p ∈ fbt, P (mkFnState instId p.1 p.2 (sm p.1))) :
    ∀ fid st, buildSnapshot instId fbt sm fid = some st → P st := by
  unfold buildSnapshot
  have gen : ∀ (l : List (PyStr × FuncRecord)) (acc : Snapshot),
      (∀ fid st, acc fid = some st → P st) →
      (∀ p ∈ l, P (mkFnState instId p.1 p.2 (sm p.1))) →
      ∀ fid st,
        (l.foldl (fun acc p => insertState acc p.2.id (mkFnState instId p.1 p.2 (sm p.1)))
          acc) fid = some st → P st := by
    intro l
    induction l with
    | nil => intro acc hacc _ fid st h; exact hacc fid st h
    | cons p rest ih =>
      intro acc hacc hl fid st h
      refine ih _ ?_ (fun q hq => hl q (List.mem_cons_of_mem p hq)) fid st h
      intro j x hx
      simp only [insertState_apply] at hx
      by_cases hj : j = p.2.id
      · rw [if_pos hj] at hx
        cases hx
        exact hl p (List.mem_cons_self p rest)
      · rw [if_neg hj] at hx
        exact hacc j x hx
  exact gen fbt emptySnapshot (by intro fid st h; cases h) hP

/-- Inversion for the embedded refresh cycle: on success the snapshot is built
from the surviving records and the returned status map, the request flag
reflects `if topics:`, and an empty survivor set short-circuits. -/
theorem async_update_ok {instId : Int} {funcs : List FuncRecord} {statusRaw : List Sample}
    {snap : Snapshot} {req : Bool} {sm : StatusMap}
    (h : async_update_data instId funcs statusRaw = .ok (snap, req, sm)) :
    snap = buildSnapshot instId (collect funcs).2 sm ∧
      ((collect funcs).1 = [] → req = false ∧ sm = emptyStatus) ∧
      ((collect funcs).1 ≠ [] → req = true ∧ mergeBatch statusRaw = .ok sm) := by
  unfold async_update_data at h
  by_cases hc : (collect funcs).1 = []
  · rw [if_pos hc] at h
    cases h
    exact ⟨rfl, fun _ => ⟨rfl, rfl⟩, fun hne => absurd hc hne⟩
  · rw [if_neg hc] at h
    cases hmb : mergeBatch statusRaw with
    | error e =>
      rw [hmb] at h
      cases h
    | ok m =>
      rw [hmb] at h
      cases h
      exact ⟨rfl, fun he => absurd he hc, fun _ => ⟨rfl, rfl⟩⟩

/-! ### Claim C1 -/

/-- A concrete switch snapshot entry whose `last_value` is 7. -/
def fnC1 : FnState :=
  { function_id := 1
    installation_id := 77
    type := "relay_switch".data
    name := "Relay".data
    topic_read := "obj/relay/1".data
    last_value := some 7
    last_timestamp := some 100
    device_id := none
    meta := [("topic_read".data, "obj/relay/1".data),
             ("topic_write".data, "77/set/obj/relay/1".data)] }

def snapC1 : Snapshot := insertState emptySnapshot 1 fnC1

/-- Claim C1 is false on the code: here the underlying MQTT publish raises an
error, `_publish` catches it, and `async_turn_on` still applies the optimistic
patch, mutating the snapshot entry's `last_value` from 7 to 255. -/
theorem claim_C1_counterexample :
    snapC1 1 = some fnC1 ∧ fnC1.last_value = some 7 ∧
      async_turn_on true (.error "MQTT publish failed with rc=1".data) snapC1 1 255 1 =
        some { fnC1 with last_value := some 255 } :=
  ⟨rfl, rfl, rfl⟩

/-- Claim C1 (amended): the optimistic patch of `last_value` after
`async_turn_on`/`async_turn_off` is applied unconditionally once `_publish`
returns — and `_publish` catches every publish error — so the patch happens
whether the underlying MQTT publish succeeded or raised. -/
theorem claim_C1_amended (mc : Bool) (res : Except PyStr Unit) (snap : Snapshot)
    (fid : Int) (stOn : Int) (st : FnState) (h : snap fid = some st) :
    async_turn_on mc res snap fid stOn fid = some { st with last_value := some stOn } := by
  have hsp : switch_publish mc res = .ok () := by
    cases mc <;> cases res <;> simp [switch_publish]
  simp [async_turn_on, hsp, h]

def fnC1w : FnState :=
  { function_id := 2
    installation_id := 9
    type := "switch".data
    name := "S".data
    topic_read := "t".data
    last_value := some 255
    last_timestamp := none
    device_id := none
    meta := [] }

def snapC1w : Snapshot := insertState emptySnapshot 2 fnC1w

theorem claim_C1_amended_witness :
    async_turn_on true (.error "timeout".data) snapC1w 2 0 2 =
      some { fnC1w with last_value := some 0 } :=
  claim_C1_amended true (.error "timeout".data) snapC1w 2 0 fnC1w rfl

/-! ### Claim C2 -/

/-- Claim C2 is false on the code: a pair whose type starts with `alarm_` and
whose meta contains `topic_write` satisfies the switch predicate *and* the
binary-alarm predicate — `is_binary_function` only excludes types containing
"switch", not `topic_write` matches. -/
theorem claim_C2_counterexample :
    is_switch_function "alarm_power".data [("topic_write".data, "1234/set/x".data)] = true ∧
      is_binary_function "alarm_power".data [("topic_write".data, "1234/set/x".data)] = true :=
  ⟨by decide, by decide⟩

/-- Claim C2 (amended): switch detection takes precedence over alarm detection
only for type-driven switch matches: when the type (lower-cased) equals
"switch" or ends in "_switch", the pair is a switch and the binary-alarm
predicate is false.  A pair that is a switch solely through `topic_write` can
also satisfy the binary-alarm predicate. -/
theorem claim_C2_amended (ty : PyStr) (meta : Meta)
    (h : pyLower ty = "switch".data ∨ "_switch".data <:+ pyLower ty) :
    is_switch_function ty meta = true ∧ is_binary_function ty meta = false := by
  have hinf : "switch".data <:+: pyLower ty := by
    rcases h with h | h
    · rw [h]
    · exact ((show ("switch".data : PyStr) <:+ "_switch".data by decide).trans h).isInfix
  constructor
  · rcases h with h | h
    · simp [is_switch_function, h]
    · by_cases he : pyLower ty = "switch".data
      · simp [is_switch_function, he]
      · simp [is_switch_function, he, h]
  · simp [is_binary_function, hinf]

theorem claim_C2_amended_witness :
    is_switch_function "relay_switch".data
        [("state_alarm".data, "1".data), ("state_no_alarm".data, "0".data)] = true ∧
      is_binary_function "relay_switch".data
        [("state_alarm".data, "1".data), ("state_no_alarm".data, "0".data)] = false :=
  claim_C2_amended "relay_switch".data
    [("state_alarm".data, "1".data), ("state_no_alarm".data, "0".data)]
    (Or.inr (by decide))

/-! ### Claim C3 -/

/-- Merging exactly two samples on the same topic: the second one wins iff its
timestamp is `>=` the first one's. -/
theorem merge_two {s1 s2 : Sample} {t : PyStr} {t1 t2 : Int}
    (h1 : s1.topic = some t) (h2 : s2.topic = some t) (ht : t ≠ [])
    (hts1 : s1.timestamp = TSField.num t1) (hts2 : s2.timestamp = TSField.num t2) :
    mergeBatch [s1, s2] =
      .ok (if t2 ≥ t1 then updateStatus (updateStatus emptyStatus t s1) t s2
           else updateStatus emptyStatus t s1) := by
  unfold mergeBatch
  rw [mergeFrom_cons_ok [s2] (mergeStep_new h1 ht rfl)]
  have hmem : updateStatus emptyStatus t s1 t = some s1 := by simp
  have hst : storedTS s1.timestamp = some t1 := by rw [hts1]; rfl
  have hcmp := mergeStep_cmp h2 ht hmem hst
  rw [mergeFrom_cons_ok [] hcmp, mergeFrom_nil, hts2]
  simp only [normTS]

/-- Claim C3: for two status samples on one topic with timestamps `t1 < t2`,
the per-topic merge retains the `t2` sample in either processing order; with
`t1 = t2` the later-processed sample is retained (the comparison is `>=`). -/
theorem claim_C3 (s1 s2 : Sample) (t : PyStr) (t1 t2 : Int)
    (h1 : s1.topic = some t) (h2 : s2.topic = some t) (ht : t ≠ [])
    (hts1 : s1.timestamp = TSField.num t1) (hts2 : s2.timestamp = TSField.num t2) :
    (t1 < t2 →
      (∃ m, mergeBatch [s1, s2] = .ok m ∧ m t = some s2) ∧
      (∃ m, mergeBatch [s2, s1] = .ok m ∧ m t = some s2)) ∧
    (t1 = t2 →
      (∃ m, mergeBatch [s1, s2] = .ok m ∧ m t = some s2) ∧
      (∃ m, mergeBatch [s2, s1] = .ok m ∧ m t = some s1)) := by
  constructor
  · intro hlt
    constructor
    · have e12 := merge_two h1 h2 ht hts1 hts2
      rw [if_pos (by omega : t2 ≥ t1)] at e12
      exact ⟨_, e12, by simp⟩
    · have e21 := merge_two h2 h1 ht hts2 hts1
      rw [if_neg (by omega : ¬ t1 ≥ t2)] at e21
      exact ⟨_, e21, by simp⟩
  · intro heq
    constructor
    · have e12 := merge_two h1 h2 ht hts1 hts2
      rw [if_pos (by omega : t2 ≥ t1)] at e12
      exact ⟨_, e12, by simp⟩
    · have e21 := merge_two h2 h1 ht hts2 hts1
      rw [if_pos (by omega : t1 ≥ t2)] at e21
      exact ⟨_, e21, by simp⟩

def sampleA : Sample := { topic := some "t3".data, timestamp := TSField.num 10, value := some 5 }

def sampleB : Sample := { topic := some "t3".data, timestamp := TSField.num 10, value := some 7 }

theorem claim_C3_witness :
    (∃ m, mergeBatch [sampleA, sampleB] = .ok m ∧ m "t3".data = some sampleB) ∧
      (∃ m, mergeBatch [sampleB, sampleA] = .ok m ∧ m "t3".data = some sampleA) :=
  (claim_C3 sampleA sampleB "t3".data 10 10 rfl rfl (by decide) rfl rfl).2 rfl

/-! ### Claim C4 -/

/-- Claim C4: on batches of status samples (whose timestamps are numbers, as
the data model states), the per-topic merge is idempotent: merging the batch
concatenated with itself gives the same per-topic result as merging it once. -/
theorem claim_C4 (b : List Sample) (hb : ∀ s ∈ b, ∃ v, s.timestamp = TSField.num v) :
    mergeBatch (b ++ b) = mergeBatch b := by
  have hb2 : ∀ s ∈ b ++ b, ∃ v, s.timestamp = TSField.num v := by
    intro s hs
    rcases List.mem_append.mp hs with h | h
    · exact hb s h
    · exact hb s h
  have e1 := (mergeFrom_eq_total b emptyStatus mapNumeric_empty hb).1
  have e2 := (mergeFrom_eq_total (b ++ b) emptyStatus mapNumeric_empty hb2).1
  unfold mergeBatch
  rw [e1, e2]
  congr 1
  funext t
  rw [mergeFromT_proj, mergeFromT_proj, List.filter_append, List.foldl_append]
  exact slot_idem _

def batchC4 : List Sample :=
  [{ topic := some "a".data, timestamp := TSField.num 3, value := some 1 },
   { topic := some "a".data, timestamp := TSField.num 5, value := some 2 }]

theorem claim_C4_witness : mergeBatch (batchC4 ++ batchC4) = mergeBatch batchC4 :=
  claim_C4 batchC4 (by
    intro s hs
    simp only [batchC4, List.mem_cons, List.not_mem_nil, or_false] at hs
    rcases hs with h | h <;> subst h
    · exact ⟨3, rfl⟩
    · exact ⟨5, rfl⟩)

/-! ### Claim C10 -/

/-- Claim C10: during the per-topic merge, a sample with an absent or empty
topic never enters the merged map (first and second conjuncts), and a sample
whose timestamp is absent, null, or 0 enters the `>=` comparison with
timestamp 0 (third conjunct). -/
theorem claim_C10 :
    (∀ (m : StatusMap) (s : Sample), s.topic = none ∨ s.topic = some [] →
      mergeStep m s = .ok m) ∧
    (∀ (b : List Sample) (m : StatusMap) (t : PyStr) (s : Sample),
      mergeBatch b = .ok m → m t = some s → t ≠ [] ∧ s.topic = some t) ∧
    (∀ (m : StatusMap) (s : Sample) (t : PyStr) (cur : Sample) (ct : Int),
      s.topic = some t → t ≠ [] → m t = some cur → storedTS cur.timestamp = some ct →
      s.timestamp = TSField.absent ∨ s.timestamp = TSField.null ∨
        s.timestamp = TSField.num 0 →
      mergeStep m s = .ok (if (0:Int) ≥ ct then updateStatus m t s else m)) := by
  refine ⟨mergeStep_skip, ?_, ?_⟩
  · intro b m t s hmb hms
    exact mergeFrom_storedOK b emptyStatus m storedOK_empty hmb t s hms
  · intro m s t cur ct hs ht hm hct hts
    have hn : normTS s.timestamp = 0 := by
      rcases hts with h | h | h <;> rw [h] <;> rfl
    rw [mergeStep_cmp hs ht hm hct, hn]

theorem claim_C10_witness :
    mergeStep emptyStatus { topic := none, timestamp := TSField.null, value := none } =
      .ok emptyStatus :=
  claim_C10.1 emptyStatus { topic := none, timestamp := TSField.null, value := none }
    (Or.inl rfl)

/-! ### Claim C5 -/

/-- Claim C5: the visibility predicate is false exactly when `ha.disabled` or
`ha.hidden` parses as truthy (the `_truthy` test: "1"/"true"/"yes"/"on" after
strip and lower-casing), true otherwise — including with both keys absent,
where the defaulted value "" is not truthy — and no snapshot entry of a
refresh cycle has a meta failing the predicate. -/
theorem claim_C5 :
    (∀ meta : Meta, is_exposed_to_ha meta = false ↔
      (py_truthy (metaGetD meta "ha.disabled".data []) = true ∨
       py_truthy (metaGetD meta "ha.hidden".data []) = true)) ∧
    (∀ (instId : Int) (funcs : List FuncRecord) (statusRaw : List Sample)
      (snap : Snapshot) (req : Bool) (sm : StatusMap) (fid : Int) (st : FnState),
      async_update_data instId funcs statusRaw = .ok (snap, req, sm) →
      snap fid = some st → is_exposed_to_ha st.meta = true) := by
  constructor
  · intro meta
    by_cases hm : meta = []
    · subst hm
      decide
    · unfold is_exposed_to_ha
      rw [if_neg hm]
      by_cases h1 : py_truthy (metaGetD meta "ha.disabled".data [])
      · simp [h1]
      · by_cases h2 : py_truthy (metaGetD meta "ha.hidden".data [])
        · simp [h1, h2]
        · simp [h1, h2]
  · intro instId funcs statusRaw snap req sm fid st hup hsnap
    obtain ⟨hsnapeq, _, _⟩ := async_update_ok hup
    subst hsnapeq
    have hcol := collect_collectedOK funcs
    exact buildSnapshot_inv (P := fun x => is_exposed_to_ha x.meta = true) instId
      (collect funcs).2 sm (fun p hp => (hcol p hp).2) fid st hsnap

theorem claim_C5_witness :
    is_exposed_to_ha [("ha.disabled".data, "yes".data), ("topic_read".data, "t1".data)] =
      false :=
  (claim_C5.1 [("ha.disabled".data, "yes".data), ("topic_read".data, "t1".data)]).mpr
    (Or.inl (by decide))

/-! ### Claim C6 -/

/-- Claim C6: every snapshot entry of a successful refresh cycle has a
non-empty `topic_read`, and when zero records survive the visibility and
topic-read filters no status request is issued and the merged sample map is
empty. -/
theorem claim_C6 (instId : Int) (funcs : List FuncRecord) (statusRaw : List Sample)
    (snap : Snapshot) (req : Bool) (sm : StatusMap)
    (h : async_update_data instId funcs statusRaw = .ok (snap, req, sm)) :
    (∀ fid st, snap fid = some st → st.topic_read ≠ []) ∧
    ((collect funcs).2 = [] → req = false ∧ ∀ t, sm t = none) := by
  obtain ⟨hsnapeq, hempty, _⟩ := async_update_ok h
  constructor
  · subst hsnapeq
    have hcol := collect_collectedOK funcs
    exact buildSnapshot_inv (P := fun x => x.topic_read ≠ []) instId
      (collect funcs).2 sm (fun p hp => (hcol p hp).1)
  · intro h2
    have h1 : (collect funcs).1 = [] := (collect_empty_iff funcs).mpr h2
    obtain ⟨hreq, hsm⟩ := hempty h1
    subst hsm
    exact ⟨hreq, fun t => rfl⟩

/-- A hidden record with a perfectly valid `topic_read`. -/
def recC6 : FuncRecord :=
  { id := 4
    installation_id := none
    type := "temp".data
    meta := [("ha.hidden".data, "true".data), ("topic_read".data, "t9".data)] }

theorem claim_C6_witness :
    (∀ fid st, emptySnapshot fid = some st → st.topic_read ≠ []) ∧
      ((collect [recC6]).2 = [] → false = false ∧ ∀ t, emptyStatus t = none) :=
  claim_C6 5 [recC6] [] emptySnapshot false emptyStatus rfl

/-! ### Claim C7 -/

def urlC7 : PyStr := "https://lynx.example.com/api/v2/status/57".data

/-- Claim C7 is false on the code: a transport failure raises
`IoTOpenApiError` with message `"Error talking to IoT Open: <err>"`, which
does not carry the offending URL. -/
theorem claim_C7_counterexample :
    async_request_json urlC7 (.transportError "Cannot connect to host".data) =
      .error ("Error talking to IoT Open: Cannot connect to host".data) ∧
      ¬ (urlC7 <:+: "Error talking to IoT Open: Cannot connect to host".data) :=
  ⟨rfl, by decide⟩

/-- Claim C7 (amended): the gateway fails with the single `IoTOpenApiError`
kind in exactly three situations — transport failure, timeout, or a response
status of 400 or more.  The HTTP-status errors carry the URL and the response
body text in the message; transport and timeout errors carry only the
underlying error text. -/
theorem claim_C7_amended (url : PyStr) (outcome : HttpOutcome) :
    ((∃ e, async_request_json url outcome = .error e) ↔
      ((∃ t, outcome = .transportError t) ∨ (∃ t, outcome = .timeoutError t) ∨
        (∃ s b c, outcome = .response s b c ∧ 400 ≤ s))) ∧
    (∀ s b c, outcome = .response s b c → 400 ≤ s →
      ∃ e, async_request_json url outcome = .error e ∧ url <:+: e ∧ b <:+: e) ∧
    (∀ e, (outcome = .transportError e ∨ outcome = .timeoutError e) →
      async_request_json url outcome =
        .error ("Error talking to IoT Open: ".data ++ e)) := by
  cases outcome with
  | transportError t =>
    refine ⟨⟨fun _ => Or.inl ⟨t, rfl⟩, fun _ => ⟨_, rfl⟩⟩, ?_, ?_⟩
    · intro s b c h
      exact HttpOutcome.noConfusion h
    · intro e he
      rcases he with he | he
      · cases he
        rfl
      · exact HttpOutcome.noConfusion he
  | timeoutError t =>
    refine ⟨⟨fun _ => Or.inr (Or.inl ⟨t, rfl⟩), fun _ => ⟨_, rfl⟩⟩, ?_, ?_⟩
    · intro s b c h
      exact HttpOutcome.noConfusion h
    · intro e he
      rcases he with he | he
      · exact HttpOutcome.noConfusion he
      · cases he
        rfl
  | response s b c =>
    by_cases h4 : 400 ≤ s
    · have herr : async_request_json url (.response s b c) =
          .error ("HTTP ".data ++ (toString s).data ++ " from ".data ++ url
            ++ ": ".data ++ b) := by
        simp [async_request_json, h4]
      refine ⟨⟨fun _ => Or.inr (Or.inr ⟨s, b, c, rfl, h4⟩), fun _ => ⟨_, herr⟩⟩, ?_, ?_⟩
      · intro s2 b2 c2 heq h400
        injection heq with e1 e2 e3
        subst e1
        subst e2
        subst e3
        refine ⟨_, herr, ?_, ?_⟩
        · exact ⟨"HTTP ".data ++ (toString s).data ++ " from ".data,
            ": ".data ++ b, by simp⟩
        · exact ⟨"HTTP ".data ++ (toString s).data ++ " from ".data ++ url ++ ": ".data,
            [], by simp⟩
      · intro e he
        rcases he with he | he <;> exact HttpOutcome.noConfusion he
    · have hnot : ∀ e, async_request_json url (.response s b c) ≠ .error e := by
        intro e
        simp only [async_request_json]
        rw [if_neg h4]
        cases c with
        | true => simp
        | false =>
          by_cases hb : b = []
          · simp [hb]
          · simp [hb]
      refine ⟨⟨?_, ?_⟩, ?_, ?_⟩
      · rintro ⟨e, he⟩
        exact absurd he (hnot e)
      · rintro (⟨t, ht⟩ | ⟨t, ht⟩ | ⟨s2, b2, c2, heq, h400⟩)
        · exact HttpOutcome.noConfusion ht
        · exact HttpOutcome.noConfusion ht
        · injection heq with e1 e2 e3
          subst e1
          exact absurd h400 h4
      · intro s2 b2 c2 heq h400
        injection heq with e1 e2 e3
        subst e1
        exact absurd h400 h4
      · intro e he
        rcases he with he | he <;> exact HttpOutcome.noConfusion he

theorem claim_C7_amended_witness :
    async_request_json "https://x".data (.timeoutError "deadline".data) =
      .error ("Error talking to IoT Open: ".data ++ "deadline".data) :=
  (claim_C7_amended "https://x".data (.timeoutError "deadline".data)).2.2
    "deadline".data (Or.inr rfl)

/-! ### Claim C8 -/

/-- Claim C8: the switch write topic is the stripped `meta.topic_write`
verbatim when it is non-empty, starts with a digit and contains "/"; a
non-empty `topic_write` failing that test is prefixed with the
installation/client-derived prefix; an empty one falls back to
`<prefix>/set/<topic_read>`. -/
theorem claim_C8 (mqttPrefix : Option PyStr) (instId : Int) (meta : Meta)
    (topicRead : PyStr) :
    (∀ c rest, topic_write_meta meta = c :: rest →
      (c.isDigit = true ∧ "/".data <:+: (c :: rest)) →
      derive_topic_set mqttPrefix instId meta topicRead = c :: rest) ∧
    (∀ c rest, topic_write_meta meta = c :: rest →
      ¬ (c.isDigit = true ∧ "/".data <:+: (c :: rest)) →
      derive_topic_set mqttPrefix instId meta topicRead =
        default_prefix mqttPrefix instId ++ "/".data ++ pyLStripSlash (c :: rest)) ∧
    (topic_write_meta meta = [] →
      derive_topic_set mqttPrefix instId meta topicRead =
        default_prefix mqttPrefix instId ++ "/set/".data ++ pyLStripSlash topicRead) := by
  refine ⟨?_, ?_, ?_⟩
  · intro c rest h hcond
    simp [derive_topic_set, h, hcond]
  · intro c rest h hcond
    simp [derive_topic_set, h, hcond]
  · intro h
    simp [derive_topic_set, h]

def metaC8 : Meta := [("topic_write".data, "2086/set/obj/relay/1".data)]

theorem claim_C8_witness :
    derive_topic_set none 77 metaC8 "tr".data = '2' :: "086/set/obj/relay/1".data :=
  (claim_C8 none 77 metaC8 "tr".data).1 '2' "086/set/obj/relay/1".data (by decide)
    ⟨by decide, by decide⟩

/-! ### Claim C9 -/

/-- Claim C9: the command channel's publish fails with a publish error
carrying the non-success acknowledgment code, and it never silently drops a
request: a successful return means the connection succeeded and the broker
acknowledged with the success code. -/
theorem claim_C9 (connect : Except PyStr Unit) (ackRc : Int) :
    (connect = .ok () → ackRc ≠ 0 →
      mqtt_async_publish connect ackRc =
        .error ("MQTT publish failed with rc=".data ++ (toString ackRc).data)) ∧
    (mqtt_async_publish connect ackRc = .ok () → connect = .ok () ∧ ackRc = 0) := by
  constructor
  · intro hc hrc
    subst hc
    simp [mqtt_async_publish, hrc]
  · intro h
    cases connect with
    | error e => simp [mqtt_async_publish] at h
    | ok u =>
      cases u
      by_cases hrc : ackRc = 0
      · exact ⟨rfl, hrc⟩
      · simp [mqtt_async_publish, hrc] at h

theorem claim_C9_witness :
    mqtt_async_publish (.ok ()) 1 =
      .error ("MQTT publish failed with rc=".data ++ (toString (1 : Int)).data) :=
  (claim_C9 (.ok ()) 1).1 rfl (by decide)

end IoTOpen
